import Mathlib

/-!
Verification of the ALOHA trace-parser (scripts/trace_parser_aloha.py) against its
natural-language specification.  The Python source is shallowly embedded: Python
floats become rationals (ℚ), Python ints become ℤ/ℕ, dictionaries become explicit
key lists plus a total store function, and fallible code returns Option (none =
the Python code raises).  Every definition is translated from the source file;
definitions whose name starts with spec (or that are marked as such in their doc
comment) instead follow the specification's words, for comparison.
-/

namespace AquaSim

/-! ## Physical-layer constants (trace_parser_aloha.py lines 13-16, 471) -/

/-- TX_POWER = 60.0 Watts. -/
def TX_POWER : ℚ := 60

/-- RX_POWER = 0.158 Watts. -/
def RX_POWER : ℚ := 158 / 1000

/-- IDLE_POWER = 0.158 Watts. -/
def IDLE_POWER : ℚ := 158 / 1000

/-- LINK_SPEED = 80000.0 bps. -/
def LINK_SPEED : ℚ := 80000

/-- PACKET_SIZE = 800 bytes (line 471). -/
def PACKET_SIZE : ℕ := 800

/-! ## Per-node state (the NODE_VALUES dictionary, line 71) -/

/-- One node's entry of NODE_INFO: the fields of the NODE_VALUES template dict.
LAST_TS is the spec's busy_until. -/
structure NodeState where
  processed_rx_count : ℕ
  rx_energy : ℚ
  tx_energy : ℚ
  idle_energy : ℚ
  collision_count : ℕ
  last_ts : ℚ
deriving DecidableEq, Repr

/-- The zeroed NODE_VALUES template (line 71). -/
def NODE_VALUES : NodeState :=
  { processed_rx_count := 0, rx_energy := 0, tx_energy := 0,
    idle_energy := 0, collision_count := 0, last_ts := 0 }

/-- Node-state update for a TX event (lines 173-188 of parse_fields).
`payload` is the parsed Size (header_size = payload_size); the returned Bool is
the value appended to TRACE["bad"] (true = collision). The two tx_energy
additions of lines 175-176 are kept as two separate updates. -/
def updateTX (st : NodeState) (ts : ℚ) (payload : ℤ) : NodeState × Bool :=
  let air : ℚ := ((payload : ℚ) * 8) / LINK_SPEED
  let st2 : NodeState :=
    { { st with tx_energy := st.tx_energy + air * TX_POWER } with
        tx_energy := st.tx_energy + air * TX_POWER + air * IDLE_POWER }
  if st2.last_ts ≤ ts then
    ({ st2 with
        idle_energy := st2.idle_energy + ((ts - st2.last_ts) / 1000000000) * IDLE_POWER,
        last_ts := ts + air }, false)
  else
    ({ st2 with collision_count := st2.collision_count + 1 }, true)

/-- Node-state update for an RX event (lines 271-287 of parse_fields).
The RX guard is `(ts - header_size*8/LINK_SPEED) >= LAST_TS` (line 274). -/
def updateRX (st : NodeState) (ts : ℚ) (payload : ℤ) : NodeState × Bool :=
  let air : ℚ := ((payload : ℚ) * 8) / LINK_SPEED
  if st.last_ts ≤ ts - air then
    ({ st with
        processed_rx_count := st.processed_rx_count + 1,
        idle_energy := st.idle_energy + ((ts - st.last_ts) / 1000000000) * IDLE_POWER,
        last_ts := ts,
        rx_energy := st.rx_energy + air * RX_POWER }, false)
  else
    ({ st with collision_count := st.collision_count + 1 }, true)

/-! ## The NODE_INFO map and event processing -/

/-- Mode of a trace record: "TX" or "RX". -/
inductive Mode where
  | TX : Mode
  | RX : Mode
deriving DecidableEq, Repr

/-- The data of one event that reaches the node-state bookkeeping of
parse_fields: mode, timestamp (ns), node id (from the trace path), parsed
payload size (Python int, hence ℤ). -/
structure Event where
  mode : Mode
  ts : ℚ
  node : ℕ
  payload : ℤ
deriving DecidableEq, Repr

/-- NODE_INFO: a Python dict modelled as its insertion-ordered key list plus a
total store; keys not in `keys` are absent from the dict. -/
structure NodeInfo where
  keys : List ℕ
  st : ℕ → NodeState

/-- Pointwise store update (assignment NODE_INFO[n] = v). -/
def updStore (f : ℕ → NodeState) (n : ℕ) (v : NodeState) : ℕ → NodeState :=
  fun k => if k = n then v else f k

/-- Initial NODE_INFO: keys 0..299 preallocated with copies of NODE_VALUES
(lines 73-75). -/
def initNodeInfo : NodeInfo :=
  { keys := List.range 300, st := fun _ => NODE_VALUES }

/-- ensure_node_exists (lines 77-80): lazily create an absent node with the
zeroed NODE_VALUES fields. -/
def ensure_node_exists (ni : NodeInfo) (n : ℕ) : NodeInfo :=
  if n ∈ ni.keys then ni
  else { keys := ni.keys ++ [n], st := updStore ni.st n NODE_VALUES }

/-- Dispatch an event to the TX or RX node-state update. -/
def stepNode (st : NodeState) (e : Event) : NodeState × Bool :=
  match e.mode with
  | Mode.TX => updateTX st e.ts e.payload
  | Mode.RX => updateRX st e.ts e.payload

/-- Process one event against NODE_INFO: ensure the node exists, update its
state, return the new map and the collision flag stored on the record. -/
def processEvent (ni : NodeInfo) (e : Event) : NodeInfo × Bool :=
  ({ keys := (ensure_node_exists ni e.node).keys,
     st := updStore (ensure_node_exists ni e.node).st e.node
             (stepNode ((ensure_node_exists ni e.node).st e.node) e).1 },
   (stepNode ((ensure_node_exists ni e.node).st e.node) e).2)

/-- Process a list of events in order (the parse_fields main loop's effect on
NODE_INFO). -/
def processEvents (ni : NodeInfo) (evs : List Event) : NodeInfo :=
  evs.foldl (fun acc e => (processEvent acc e).1) ni

/-- Total energy of one node's entry (the three terms summed per node in
calc_energy_consumption, lines 460-464). -/
def nodeEnergy (s : NodeState) : ℚ :=
  s.rx_energy + s.tx_energy + s.idle_energy

/-- calc_energy_consumption (lines 455-468): accumulate RX_ENERGY, TX_ENERGY
and IDLE_ENERGY over every node of the dict. -/
def calc_energy_consumption (ni : NodeInfo) : ℚ :=
  (ni.keys.map (fun k => nodeEnergy (ni.st k))).sum

/-- The loop body of calc_rx_nocol_calls: iterate i over range(len(NODE_INFO))
and look NODE_INFO[i] up; a missing key raises KeyError (none). -/
def rxNocolGo (ni : NodeInfo) (acc : ℕ) : List ℕ → Option ℕ
  | [] => some acc
  | i :: rest =>
    if i ∈ ni.keys then rxNocolGo ni (acc + (ni.st i).processed_rx_count) rest
    else none

/-- calc_rx_nocol_calls (lines 448-452): sum PROCESSED_RX_COUNT over the integer
indices 0..len(NODE_INFO)-1. -/
def calc_rx_nocol_calls (ni : NodeInfo) : Option ℕ :=
  rxNocolGo ni 0 (List.range ni.keys.length)

/-! ## EventSplitter: parse_events (lines 20-42) -/

/-- Whether a physical line's first character is t or r (the line[0] tests of
line 30).  Python raises IndexError on an empty string; file iteration never
yields one, and the theorems below assume nonempty lines. -/
def startsTR (line : String) : Bool :=
  match line.data with
  | [] => false
  | c :: _ => c == 't' || c == 'r'

/-- Python's line[:-1]: the line without its final character (the newline). -/
def pyDropLast (s : String) : String :=
  String.mk s.data.dropLast

/-- The loop of parse_events: `event` is the accumulator, `i` the line counter;
a t/r line at i ≠ 0 flushes the previous event, every other line is
concatenated (line[:-1] drops the newline). The final event is always appended
after the loop (line 41). -/
def parseEventsGo (event : String) (i : ℕ) : List String → List String
  | [] => [event]
  | line :: rest =>
    if startsTR line ∧ i ≠ 0 then
      event :: parseEventsGo (pyDropLast line) (i + 1) rest
    else
      parseEventsGo (event ++ pyDropLast line) (i + 1) rest

/-- parse_events over the file's physical lines (each string still carrying its
trailing newline character, as Python's file iteration yields them). -/
def parse_events (lines : List String) : List String :=
  parseEventsGo ("") 0 lines

/-- Modelled from the spec claim's wording: the number of physical lines whose
first character is t or r. -/
def countTR (lines : List String) : ℕ :=
  (lines.filter startsTR).length

/-- The correction term by which parse_events deviates from countTR: the first
physical line always starts an event, so unless it is itself a t/r line (in a
nonempty input) one extra event string is produced. -/
def splitterCorrection (lines : List String) : ℕ :=
  match lines with
  | [] => 1
  | l :: _ => if startsTR l then 0 else 1

/-! ## Field extraction: parse_field_value (lines 52-63) -/

/-- Python's \s class (whitespace characters). -/
def isPySpace (c : Char) : Bool :=
  c == ' ' || c == '\t' || c == '\n' || c == '\r' || c == '\x0b' || c == '\x0c'

/-- A character matched by [^)\s] in the value group of the field regex. -/
def valueChar (c : Char) : Bool :=
  !(c == ')' || isPySpace c)

/-- Leftmost regex search for pattern `pat` followed by a nonempty run of
characters satisfying `good` (the capture group); returns the captured run.
Models re.search for the patterns Name=([^)\s]+) and DestAddress=(\d+). -/
def scanFieldAux (pat : List Char) (good : Char → Bool) : List Char → Option (List Char)
  | [] => none
  | c :: rest =>
    if pat.isPrefixOf (c :: rest) ∧ ((c :: rest).drop pat.length).takeWhile good ≠ [] then
      some (((c :: rest).drop pat.length).takeWhile good)
    else scanFieldAux pat good rest

/-- parse_field_value (lines 52-63): search for field_name=([^)\s]+), then strip
one trailing comma from the captured value. -/
def parse_field_value (line : String) (field_name : String) : Option String :=
  match scanFieldAux (field_name ++ "=").data valueChar line.data with
  | none => none
  | some v => some (String.mk (if v.getLast? = some ',' then v.dropLast else v))

/-- The DestAddress=(\d+) search of calc_recv_packets (line 352): the capture is
a maximal nonempty digit run. -/
def find_dest_address (line : String) : Option String :=
  match scanFieldAux ("DestAddress=").data Char.isDigit line.data with
  | none => none
  | some v => some (String.mk v)

/-! ## Python int() on captured field values -/

/-- Decimal value of a digit list (most significant first). -/
def digitsValGo (acc : ℕ) : List Char → ℕ
  | [] => acc
  | c :: cs => digitsValGo (acc * 10 + (c.toNat - ('0').toNat)) cs

/-- Decimal value of a digit list. -/
def digitsVal (cs : List Char) : ℕ :=
  digitsValGo 0 cs

/-- Python int(s) on a regex-captured token: an optional sign followed by at
least one ASCII digit; anything else raises ValueError (none). -/
def pyInt (s : String) : Option ℤ :=
  match s.data with
  | [] => none
  | '-' :: rest =>
    if rest ≠ [] ∧ rest.all Char.isDigit then some (-(digitsVal rest : ℤ)) else none
  | '+' :: rest =>
    if rest ≠ [] ∧ rest.all Char.isDigit then some ((digitsVal rest : ℤ)) else none
  | cs =>
    if cs.all Char.isDigit then some ((digitsVal cs : ℤ)) else none

/-! ## AddressDecoder: convert_string_to_int (lines 291-323) -/

/-- The branch structure of convert_string_to_int after its two validations:
strings starting with 0 lose that zero (0 when nothing remains, lines 307-312),
others give first_digit * 255 + remaining_digits, or the digit itself for a
one-character string (lines 315-323). -/
def convertAux : List Char → Option ℕ
  | [] => none
  | c :: rest =>
    if c = '0' then
      if 1 < (c :: rest).length then some (digitsVal rest) else some 0
    else
      if (c :: rest).length = 1 then some (digitsVal (c :: rest))
      else some ((c.toNat - ('0').toNat) * 255 + digitsVal rest)

/-- convert_string_to_int (lines 291-323): validates length 1-4 and all-digits
(ValueError modelled as none), then decodes via convertAux. -/
def convert_string_to_int (s : String) : Option ℕ :=
  if s.data.length < 1 ∨ 4 < s.data.length then none
  else if !(s.data.all Char.isDigit) then none
  else convertAux s.data

/-! ## UniqueID threading inside parse_fields (lines 149-154 and 243-247) -/

/-- The UniqueID aspect of parse_fields: for each event whose first character is
t or r, look UniqueID up with parse_field_value; if found, int() it (ValueError
= none) and remember it in the loop-local variable unique_id; if absent, the
unconditional TRACE["UNIQUE_ID"].append(unique_id) reads the variable, which
raises NameError (none) when no earlier event ever assigned it and otherwise
silently re-appends the stale value.  Events starting with any other character
are skipped by the loop.  An empty event string would raise IndexError on
line[0] (none). -/
def parseUidGo (cur : Option ℤ) (acc : List ℤ) : List String → Option (List ℤ)
  | [] => some acc
  | ev :: rest =>
    match ev.data with
    | [] => none
    | c :: _ =>
      if c = 't' ∨ c = 'r' then
        match parse_field_value ev ("UniqueID") with
        | some v =>
          match pyInt v with
          | some n => parseUidGo (some n) (acc ++ [n]) rest
          | none => none
        | none =>
          match cur with
          | some n => parseUidGo cur (acc ++ [n]) rest
          | none => none
      else parseUidGo cur acc rest

/-- The sequence of UNIQUE_ID values parse_fields appends, or none when it
raises. -/
def parse_fields_unique_ids (events : List String) : Option (List ℤ) :=
  parseUidGo none [] events

/-! ## The Trace table -/

/-- One row of the TRACE table, restricted to the columns the metrics under
verification read: RX/TX-MODE, TS, NODE_ID, UNIQUE_ID, MAC_DST_ADDR,
ORIGINAL_LINE and the bad (collision) flag. -/
structure TraceRec where
  mode : Mode
  ts : ℚ
  node : ℤ
  uid : ℤ
  dst : String
  orig : String
  bad : Bool
deriving DecidableEq, Repr

/-! ## MetricsEngine over the Trace table -/

/-- calc_sent_packets (lines 427-436): the loop body only increments, once per
record of the table, whatever the record's mode. -/
def calc_sent_packets (tr : List TraceRec) : ℕ :=
  tr.foldl (fun n _ => n + 1) 0

/-- calc_tx_calls (lines 440-441): TRACE["RX/TX-MODE"].count("TX"). -/
def calc_tx_calls (tr : List TraceRec) : ℕ :=
  tr.countP (fun r => decide (r.mode = Mode.TX))

/-- calc_rx_calls (lines 445-446): TRACE["RX/TX-MODE"].count("RX"). -/
def calc_rx_calls (tr : List TraceRec) : ℕ :=
  tr.countP (fun r => decide (r.mode = Mode.RX))

/-- The inner loop of calc_delay (lines 375-378): one delay sample
(TS[i] - TS[j]) / 1e9 for every TX record j sharing record i's unique id. -/
def txSamples (all : List TraceRec) (rec : TraceRec) : List ℚ :=
  (all.filter (fun r => decide (r.uid = rec.uid ∧ r.mode = Mode.TX))).map
    (fun r => (rec.ts - r.ts) / 1000000000)

/-- The outer loop of calc_delay (lines 370-381): a record whose int(mac_dst)
equals node_id + 1 and whose unique id is not yet processed contributes the
samples of its group; int() on a non-numeric MAC_DST_ADDR raises (none). -/
def delayGo (all : List TraceRec) (processed : List ℤ) (delays : List ℚ) :
    List TraceRec → Option (List ℚ)
  | [] => some delays
  | r :: rest =>
    match pyInt r.dst with
    | none => none
    | some d =>
      if d = r.node + 1 ∧ r.uid ∉ processed then
        delayGo all (processed ++ [r.uid]) (delays ++ txSamples all r) rest
      else delayGo all processed delays rest

/-- numpy.array(delays).mean(): NaN on an empty list (modelled as none),
otherwise the arithmetic mean. -/
def mkMean (l : List ℚ) : Option ℚ :=
  if l = [] then none else some (l.sum / (l.length : ℚ))

/-- calc_delay (lines 369-383).  Outer none: the int() conversion raised; inner
none: the mean of an empty sample list (NaN). -/
def calc_delay (tr : List TraceRec) : Option (Option ℚ) :=
  match delayGo tr [] [] tr with
  | none => none
  | some ds => some (mkMean ds)

/-- Whether a record satisfies calc_delay's group-start test
int(MAC_DST_ADDR) == NODE_ID + 1. -/
def delayMatches (r : TraceRec) : Bool :=
  decide (pyInt r.dst = some (r.node + 1))

/-- Modelled from the spec's wording for average_delay (amended to the code's
condition): scanning the table in order, a record starts a sample group when it
is the first record of its unique id satisfying int(MAC_DST_ADDR) == NODE_ID+1,
(records of either mode - the code has no RX-only restriction), and contributes
one sample per TX record sharing the unique id.  `pre` is the list of records
already scanned. -/
def specSamplesGo (all : List TraceRec) (pre : List TraceRec) :
    List TraceRec → List ℚ
  | [] => []
  | r :: rest =>
    (if delayMatches r ∧ ¬ (pre.any (fun q => decide (q.uid = r.uid) && delayMatches q)) then
       txSamples all r
     else []) ++ specSamplesGo all (pre ++ [r]) rest

/-- The delay samples as described by the (amended) specification. -/
def specSamples (tr : List TraceRec) : List ℚ :=
  specSamplesGo tr [] tr

/-- calc_recv_packets loop (lines 346-360): successful_deliveries is a set of
unique ids, modelled as a duplicate-free insertion list; a record counts when it
is RX, non-colliding, carries a DestAddress=(digits) token whose
convert_string_to_int (which may raise, none) equals NODE_ID + 1. -/
def recvGo (ids : List ℤ) : List TraceRec → Option (List ℤ)
  | [] => some ids
  | r :: rest =>
    if r.mode = Mode.RX ∧ r.bad = false then
      match find_dest_address r.orig with
      | some dstr =>
        match convert_string_to_int dstr with
        | none => none
        | some v =>
          if (v : ℤ) = r.node + 1 then
            recvGo (if r.uid ∈ ids then ids else ids ++ [r.uid]) rest
          else recvGo ids rest
      | none => recvGo ids rest
    else recvGo ids rest

/-- calc_recv_packets (lines 346-360): the size of the set of delivered unique
ids. -/
def calc_recv_packets (tr : List TraceRec) : Option ℕ :=
  match recvGo [] tr with
  | none => none
  | some ids => some ids.length

/-- calc_pdr (lines 498-502): float(n_recv) / n_sent, an unguarded division
that raises ZeroDivisionError (none) when calc_sent_packets is 0. -/
def calc_pdr (tr : List TraceRec) : Option ℚ :=
  match calc_recv_packets tr with
  | none => none
  | some n =>
    if calc_sent_packets tr = 0 then none
    else some ((n : ℚ) / (calc_sent_packets tr : ℚ))

/-- calc_energy_per_bit (lines 473-478): guarded, returns 0.0 when
calc_recv_packets is 0. -/
def calc_energy_per_bit (ni : NodeInfo) (tr : List TraceRec) : Option ℚ :=
  match calc_recv_packets tr with
  | none => none
  | some n =>
    if n = 0 then some 0
    else some (calc_energy_consumption ni / ((n : ℚ) * (PACKET_SIZE : ℚ) * 8))

/-! ## Concrete inputs used by counterexamples and witnesses -/

/-- A two-record trace: one TX then one RX record. -/
def mixedTrace : List TraceRec :=
  [{ mode := Mode.TX, ts := 0, node := 0, uid := 1, dst := "000", orig := "", bad := false },
   { mode := Mode.RX, ts := 1, node := 1, uid := 1, dst := "000", orig := "", bad := false }]

/-- A trace made of a single TX record that is its own delivery endpoint for
calc_delay: int(MAC_DST_ADDR) = 1 = NODE_ID + 1. -/
def selfDstTxTrace : List TraceRec :=
  [{ mode := Mode.TX, ts := 5000000000, node := 0, uid := 7, dst := "1", orig := "", bad := false }]

/-- The spec's single TX/RX delay example: TX at node 0, ts = 0 ns; RX at node
1, ts = 5e9 ns; shared unique id; destination address "2" = node 1 + 1. -/
def delayExampleTrace : List TraceRec :=
  [{ mode := Mode.TX, ts := 0, node := 0, uid := 42, dst := "2", orig := "", bad := false },
   { mode := Mode.RX, ts := 5000000000, node := 1, uid := 42, dst := "2", orig := "", bad := false }]

/-- A t-event carrying UniqueID=7 followed by a t-event with no UniqueID
token. -/
def uidEvent1 : String := "t 0 /NodeList/5/Device Size=50 UniqueID=7"

/-- The second event of the stale-UniqueID failing input: no UniqueID token. -/
def uidEvent2 : String := "t 1 /NodeList/5/Device Size=50"

/-- A TX event at node 301 (beyond the 300 preallocated nodes). -/
def ev301 : Event := { mode := Mode.TX, ts := 0, node := 301, payload := 50 }

/-- The event list made of the single event ev301. -/
def node301Events : List Event := [ev301]

/-- A TX event at node 5. -/
def ev5 : Event := { mode := Mode.TX, ts := 0, node := 5, payload := 50 }

/-- The event list made of the single event ev5. -/
def node5Events : List Event := [ev5]

/-! ## Helper lemmas -/

/-- The increment-only foldl of calc_sent_packets counts the records. -/
theorem foldl_incr (l : List TraceRec) : ∀ n : ℕ,
    List.foldl (fun m (_ : TraceRec) => m + 1) n l = n + l.length := by
  induction l with
  | nil => intro n; simp
  | cons a t ih => intro n; simp [List.foldl_cons, ih]; omega

/-! ## Claim C1 -/

/-- Claim C1 counterexample: on a trace with one TX and one RX record,
calc_sent_packets is 2 while calc_tx_calls is 1, so sent_packets is NOT the
count of TX-mode records and differs from tx_calls. -/
theorem c1_sent_packets_cex :
    calc_sent_packets mixedTrace = 2 ∧ calc_tx_calls mixedTrace = 1 := by
  constructor <;> rfl

/-- Claim C1 (amended): calc_sent_packets counts every record of the Trace
table, TX- and RX-mode alike (the loop of lines 433-434 increments once per
row unconditionally); it coincides with calc_tx_calls exactly on traces with
no RX-mode records. -/
theorem c1_sent_packets_amended (tr : List TraceRec) :
    calc_sent_packets tr = tr.length
    ∧ (calc_rx_calls tr = 0 → calc_sent_packets tr = calc_tx_calls tr) := by
  have hlen : calc_sent_packets tr = tr.length := by
    simpa [calc_sent_packets] using foldl_incr tr 0
  refine ⟨hlen, fun h => ?_⟩
  have hall : ∀ r ∈ tr, ¬ (decide (r.mode = Mode.RX) = true) :=
    List.countP_eq_zero.mp h
  have htx : calc_tx_calls tr = tr.length := by
    apply List.countP_eq_length.mpr
    intro r hr
    have := hall r hr
    cases hm : r.mode with
    | TX => simp
    | RX => exact absurd (by simp [hm]) this
  rw [hlen, htx]

/-- Claim C1 witness: on the TX-only single-record trace the amended equality
sent_packets = tx_calls holds. -/
theorem c1_sent_packets_witness :
    calc_sent_packets selfDstTxTrace = calc_tx_calls selfDstTxTrace :=
  (c1_sent_packets_amended selfDstTxTrace).2 (by decide)

/-! ## Claim C2 -/

/-- Claim C2 (code bug): an event with no UniqueID=value token does NOT abort
the parse when an earlier event carried a UniqueID - the loop variable
unique_id still holds the previous event's value and line 154/247 appends that
stale value to the record.  Here the second event has no UniqueID token, yet
parsing succeeds and both records get unique id 7.  Only when no earlier event
ever carried the token does the code fault (NameError), as the second conjunct
shows. -/
theorem c2_stale_unique_id_eval :
    parse_fields_unique_ids [uidEvent1, uidEvent2] = some [7, 7]
    ∧ parse_fields_unique_ids [uidEvent2] = none := by
  constructor <;> decide

/-! ## Claim C3 -/

/-- Claim C3: for every TX event, tx_energy increases by
air_time * (TX_POWER + IDLE_POWER) whether or not the event collides; when
ts < busy_until the event is flagged as a collision, collision_count goes up by
exactly 1, and busy_until, idle_energy, rx_energy and processed_rx_count are
unchanged; and two TX events at the same node with overlapping busy intervals
(the first non-colliding, the second starting before the first's busy_until)
produce exactly one collision flag and a collision_count increment of exactly
1. -/
theorem c3_tx_collision_spec (st : NodeState) (ts : ℚ) (pay : ℤ)
    (st0 : NodeState) (ts1 ts2 : ℚ) (p1 p2 : ℤ) :
    ((updateTX st ts pay).1.tx_energy
        = st.tx_energy + ((pay : ℚ) * 8 / LINK_SPEED) * (TX_POWER + IDLE_POWER))
    ∧ (ts < st.last_ts →
        (updateTX st ts pay).2 = true
        ∧ (updateTX st ts pay).1.collision_count = st.collision_count + 1
        ∧ (updateTX st ts pay).1.last_ts = st.last_ts
        ∧ (updateTX st ts pay).1.idle_energy = st.idle_energy
        ∧ (updateTX st ts pay).1.rx_energy = st.rx_energy
        ∧ (updateTX st ts pay).1.processed_rx_count = st.processed_rx_count)
    ∧ (st0.last_ts ≤ ts1 → ts2 < ts1 + (p1 : ℚ) * 8 / LINK_SPEED →
        (updateTX st0 ts1 p1).2 = false
        ∧ (updateTX (updateTX st0 ts1 p1).1 ts2 p2).2 = true
        ∧ (updateTX (updateTX st0 ts1 p1).1 ts2 p2).1.collision_count
            = st0.collision_count + 1) := by
  refine ⟨?_, ?_, ?_⟩
  · by_cases h : st.last_ts ≤ ts <;> simp [updateTX, h] <;> ring
  · intro hlt
    have h : ¬ st.last_ts ≤ ts := not_le.mpr hlt
    refine ⟨?_, ?_, ?_, ?_, ?_, ?_⟩ <;> simp [updateTX, h]
  · intro h1 h2
    have hl1 : (updateTX st0 ts1 p1).1.last_ts = ts1 + (p1 : ℚ) * 8 / LINK_SPEED := by
      simp [updateTX, h1]
    have hc1 : (updateTX st0 ts1 p1).1.collision_count = st0.collision_count := by
      simp [updateTX, h1]
    have hf1 : (updateTX st0 ts1 p1).2 = false := by
      simp [updateTX, h1]
    set st1 := (updateTX st0 ts1 p1).1 with hst1
    have hn2 : ¬ st1.last_ts ≤ ts2 := by
      rw [hl1]; exact not_le.mpr h2
    refine ⟨hf1, by simp [updateTX, hn2], ?_⟩
    simp [updateTX, hn2, hc1]

/-- Claim C3 witness: a fresh node transmits at ts 0 (payload 50 bytes, busy
until air time 1/200) and again at ts 1/1000; the second TX is flagged and
collision_count ends at exactly 1. -/
theorem c3_tx_collision_witness :
    (updateTX (updateTX NODE_VALUES 0 50).1 (1 / 1000) 50).2 = true
    ∧ (updateTX (updateTX NODE_VALUES 0 50).1 (1 / 1000) 50).1.collision_count
        = NODE_VALUES.collision_count + 1 := by
  have h := (c3_tx_collision_spec NODE_VALUES 0 50 NODE_VALUES 0 (1 / 1000) 50 50).2.2
    (by norm_num [NODE_VALUES]) (by norm_num [LINK_SPEED])
  exact ⟨h.2.1, h.2.2⟩

/-! ## Claim C4 -/

/-- Claim C4: an RX event at time ts with air_time = payload * 8 / LINK_SPEED is
non-colliding iff ts - air_time >= busy_until; in that case processed_rx_count
increments, idle_energy grows by (ts - busy_until) / 1e9 * IDLE_POWER (the
implementation's unit conversion), busy_until becomes ts and rx_energy grows by
air_time * RX_POWER; otherwise only collision_count changes and the flag is
true. -/
theorem c4_rx_step_spec (st : NodeState) (ts : ℚ) (pay : ℤ) :
    ((updateRX st ts pay).2 = false ↔ st.last_ts ≤ ts - (pay : ℚ) * 8 / LINK_SPEED)
    ∧ (st.last_ts ≤ ts - (pay : ℚ) * 8 / LINK_SPEED →
        (updateRX st ts pay).1.processed_rx_count = st.processed_rx_count + 1
        ∧ (updateRX st ts pay).1.idle_energy
            = st.idle_energy + ((ts - st.last_ts) / 1000000000) * IDLE_POWER
        ∧ (updateRX st ts pay).1.last_ts = ts
        ∧ (updateRX st ts pay).1.rx_energy
            = st.rx_energy + ((pay : ℚ) * 8 / LINK_SPEED) * RX_POWER
        ∧ (updateRX st ts pay).1.tx_energy = st.tx_energy
        ∧ (updateRX st ts pay).1.collision_count = st.collision_count)
    ∧ (¬ st.last_ts ≤ ts - (pay : ℚ) * 8 / LINK_SPEED →
        (updateRX st ts pay).2 = true
        ∧ (updateRX st ts pay).1.collision_count = st.collision_count + 1
        ∧ (updateRX st ts pay).1.processed_rx_count = st.processed_rx_count
        ∧ (updateRX st ts pay).1.rx_energy = st.rx_energy
        ∧ (updateRX st ts pay).1.idle_energy = st.idle_energy
        ∧ (updateRX st ts pay).1.tx_energy = st.tx_energy
        ∧ (updateRX st ts pay).1.last_ts = st.last_ts) := by
  by_cases h : st.last_ts ≤ ts - (pay : ℚ) * 8 / LINK_SPEED <;>
    simp [updateRX, h]

/-- Claim C4 witness: a fresh node receives at ts 1 (payload 50 bytes): the
effective start 1 - 1/200 is past busy_until 0, so processed_rx_count goes to
1. -/
theorem c4_rx_step_witness :
    (updateRX NODE_VALUES 1 50).1.processed_rx_count
      = NODE_VALUES.processed_rx_count + 1 :=
  ((c4_rx_step_spec NODE_VALUES 1 50).2.1 (by norm_num [NODE_VALUES, LINK_SPEED])).1

/-! ## Claim C10 -/

/-- Claim C10: energy_per_bit is guarded - it returns 0.0 when recv_packets is
0 and total_energy / (recv * PACKET_SIZE * 8) otherwise - while pdr divides
unguarded and faults whenever sent_packets is 0; the two zero-denominator
behaviors are asymmetric exactly as coded. -/
theorem c10_zero_denominator_spec (ni : NodeInfo) (tr : List TraceRec) :
    (calc_sent_packets tr = 0 → calc_pdr tr = none)
    ∧ (∀ n : ℕ, calc_recv_packets tr = some n → calc_sent_packets tr ≠ 0 →
        calc_pdr tr = some ((n : ℚ) / (calc_sent_packets tr : ℚ)))
    ∧ (calc_recv_packets tr = some 0 → calc_energy_per_bit ni tr = some 0)
    ∧ (∀ n : ℕ, calc_recv_packets tr = some n → n ≠ 0 →
        calc_energy_per_bit ni tr
          = some (calc_energy_consumption ni / ((n : ℚ) * (PACKET_SIZE : ℚ) * 8))) := by
  refine ⟨?_, ?_, ?_, ?_⟩
  · intro hs
    cases hr : calc_recv_packets tr with
    | none => simp [calc_pdr, hr]
    | some n => simp [calc_pdr, hr, hs]
  · intro n hr hs
    simp [calc_pdr, hr, hs]
  · intro hr
    simp [calc_energy_per_bit, hr]
  · intro n hr hn
    simp [calc_energy_per_bit, hr, hn]

/-- Claim C10 witness: on the empty trace sent_packets is 0 and pdr faults,
while recv_packets is 0 and energy_per_bit returns 0.0. -/
theorem c10_zero_denominator_witness :
    calc_pdr ([]) = none ∧ calc_energy_per_bit initNodeInfo ([]) = some 0 :=
  ⟨(c10_zero_denominator_spec initNodeInfo ([])).1 (by rfl),
   (c10_zero_denominator_spec initNodeInfo ([])).2.2.1 (by rfl)⟩

/-! ## Claim C9 -/

/-- Once past the first line (i ≠ 0), parseEventsGo emits one event per t/r
line of the remaining input plus one final flush. -/
theorem parseEventsGo_length (rest : List String) : ∀ (event : String) (i : ℕ),
    i ≠ 0 → (parseEventsGo event i rest).length = countTR rest + 1 := by
  induction rest with
  | nil => intro ev i _; simp [parseEventsGo, countTR]
  | cons l t ih =>
    intro ev i hi
    by_cases h : startsTR l
    · simp [parseEventsGo, h, hi, countTR, List.filter_cons,
        ih (pyDropLast l) (i + 1) (by omega)]
    · simp [parseEventsGo, h, countTR, List.filter_cons,
        ih (ev ++ pyDropLast l) (i + 1) (by omega)]

/-- Claim C9 counterexample: the one-line input whose line does not start with
t or r has zero t/r lines but EventSplitter still produces one event string
(the final unconditional append of line 41). -/
theorem c9_splitter_count_cex :
    (parse_events (["x"])).length = 1 ∧ countTR (["x"]) = 0 := by
  constructor <;> rfl

/-- Claim C9 (amended): the number of event strings equals the number of t/r
physical lines only when the input is nonempty and its first line starts with
t or r; otherwise (empty input, or a first line starting with another
character) exactly one extra event string is produced, because the first line
always starts an event and the final event is appended unconditionally. -/
theorem c9_splitter_count_amended (lines : List String)
    (hne : ∀ l ∈ lines, l ≠ ("")) :
    (parse_events lines).length = countTR lines + splitterCorrection lines := by
  cases lines with
  | nil => rfl
  | cons l t =>
    have hgo : (parseEventsGo (pyDropLast l) 1 t).length = countTR t + 1 :=
      parseEventsGo_length t (pyDropLast l) 1 (by omega)
    by_cases hs : startsTR l <;>
      simp [parse_events, parseEventsGo, hgo, countTR, List.filter_cons, hs,
        splitterCorrection]

/-- Claim C9 witness: a single t-line input, on which the amended count law
holds (one t/r line, correction 0, one event). -/
theorem c9_splitter_count_witness :
    (parse_events (["t x"])).length = countTR (["t x"]) + splitterCorrection (["t x"]) :=
  c9_splitter_count_amended (["t x"]) (by decide)

/-! ## Claim C8 -/

/-- The decimal value of the empty digit list is 0. -/
theorem digitsVal_nil : digitsVal ([]) = 0 := rfl

/-- The decimal value of a one-character digit list is the digit itself. -/
theorem digitsVal_single (c : Char) : digitsVal ([c]) = c.toNat - ('0').toNat := by
  have h : digitsVal ([c]) = 0 * 10 + (c.toNat - ('0').toNat) := rfl
  omega

/-- convert_string_to_int returns none exactly when the length is outside 1..4
or some character is not an ASCII digit. -/
theorem convert_none_iff (s : String) :
    convert_string_to_int s = none ↔
      (s.data.length < 1 ∨ 4 < s.data.length ∨ ∃ c ∈ s.data, ¬ c.isDigit) := by
  unfold convert_string_to_int
  by_cases h1 : s.data.length < 1 ∨ 4 < s.data.length
  · rw [if_pos h1]
    exact iff_of_true rfl (h1.elim Or.inl (fun h => Or.inr (Or.inl h)))
  · rw [if_neg h1]
    by_cases h2 : s.data.all Char.isDigit
    · rw [if_neg (by simp [h2])]
      push_neg at h1
      have hR : ¬ (s.data.length < 1 ∨ 4 < s.data.length ∨ ∃ c ∈ s.data, ¬ c.isDigit) := by
        push_neg
        exact ⟨h1.1, h1.2, fun c hc => by
          have := List.all_eq_true.mp h2 c hc
          simpa using this⟩
      match hs : s.data with
      | [] =>
        exfalso
        have := h1.1
        rw [hs] at this
        simp at this
      | c :: rest =>
        rw [hs] at hR
        refine iff_of_false ?_ hR
        simp only [convertAux]
        split_ifs <;> simp
    · rw [if_pos (by simpa using h2)]
      refine iff_of_true rfl (Or.inr (Or.inr ?_))
      have := h2
      rw [List.all_eq_true] at this
      push_neg at this
      obtain ⟨c, hc, hcd⟩ := this
      exact ⟨c, hc, by simpa using hcd⟩

/-- On a valid input starting with the character 0, convert_string_to_int
strips exactly one leading zero. -/
theorem convert_zero_val (s : String) (c : Char) (rest : List Char)
    (hs : s.data = c :: rest) (h0 : c = '0')
    (hne : convert_string_to_int s ≠ none) :
    convert_string_to_int s = some (digitsVal rest) := by
  have hlen : ¬ (s.data.length < 1 ∨ 4 < s.data.length) := by
    intro h
    exact hne ((convert_none_iff s).mpr (h.elim Or.inl (fun h => Or.inr (Or.inl h))))
  have hdig : s.data.all Char.isDigit := by
    by_contra h
    apply hne
    apply (convert_none_iff s).mpr
    refine Or.inr (Or.inr ?_)
    rw [List.all_eq_true] at h
    push_neg at h
    obtain ⟨x, hx, hxd⟩ := h
    exact ⟨x, hx, by simpa using hxd⟩
  unfold convert_string_to_int
  rw [if_neg hlen, if_neg (by simp [hdig]), hs]
  rcases hrest : rest with _ | ⟨d, rest2⟩
  · simp [convertAux, h0, digitsVal_nil]
  · simp [convertAux, h0]

/-- On a valid input not starting with 0, convert_string_to_int returns the
first digit alone (length 1) or first_digit * 255 + remaining_digits. -/
theorem convert_nonzero_val (s : String) (c : Char) (rest : List Char)
    (hs : s.data = c :: rest) (h0 : c ≠ '0')
    (hne : convert_string_to_int s ≠ none) :
    convert_string_to_int s
      = some (if rest = [] then c.toNat - ('0').toNat
              else (c.toNat - ('0').toNat) * 255 + digitsVal rest) := by
  have hlen : ¬ (s.data.length < 1 ∨ 4 < s.data.length) := by
    intro h
    exact hne ((convert_none_iff s).mpr (h.elim Or.inl (fun h => Or.inr (Or.inl h))))
  have hdig : s.data.all Char.isDigit := by
    by_contra h
    apply hne
    apply (convert_none_iff s).mpr
    refine Or.inr (Or.inr ?_)
    rw [List.all_eq_true] at h
    push_neg at h
    obtain ⟨x, hx, hxd⟩ := h
    exact ⟨x, hx, by simpa using hxd⟩
  unfold convert_string_to_int
  rw [if_neg hlen, if_neg (by simp [hdig]), hs]
  rcases hrest : rest with _ | ⟨d, rest2⟩
  · simp [convertAux, h0, digitsVal_single]
  · simp [convertAux, h0]

/-- Claim C8: AddressDecoder faults iff the length is outside 1..4 or a
character is a non-digit; a string starting with 0 decodes by stripping one
leading zero (0 for the string consisting of the single character 0), any
other string decodes as first_digit * 255 + remaining_digits (the first digit
alone for one-character strings); and the five cited test values hold. -/
theorem c8_address_decoder_spec (s : String) :
    (convert_string_to_int s = none ↔
      (s.data.length < 1 ∨ 4 < s.data.length ∨ ∃ c ∈ s.data, ¬ c.isDigit))
    ∧ (∀ (c : Char) (rest : List Char), s.data = c :: rest → c = '0' →
        convert_string_to_int s ≠ none →
        convert_string_to_int s = some (digitsVal rest))
    ∧ (∀ (c : Char) (rest : List Char), s.data = c :: rest → c ≠ '0' →
        convert_string_to_int s ≠ none →
        convert_string_to_int s
          = some (if rest = [] then c.toNat - ('0').toNat
                  else (c.toNat - ('0').toNat) * 255 + digitsVal rest))
    ∧ convert_string_to_int ("0") = some 0
    ∧ convert_string_to_int ("05") = some 5
    ∧ convert_string_to_int ("100") = some 255
    ∧ convert_string_to_int ("999") = some 2394
    ∧ convert_string_to_int ("12a") = none
    ∧ convert_string_to_int ("") = none := by
  refine ⟨convert_none_iff s, ?_, ?_, ?_, ?_, ?_, ?_, ?_, ?_⟩
  · intro c rest hs h0 hne
    exact convert_zero_val s c rest hs h0 hne
  · intro c rest hs h0 hne
    exact convert_nonzero_val s c rest hs h0 hne
  all_goals decide

/-- Claim C8 witness: the leading-zero rule applied to the concrete string 05
yields the decimal value of its tail. -/
theorem c8_address_decoder_witness :
    convert_string_to_int ("05") = some (digitsVal (['5'])) :=
  (c8_address_decoder_spec ("05")).2.1 '0' (['5']) (by decide) (by decide) (by decide)

/-! ## Claim C6 -/

/-- When every processed event's node id is already a key, the key list of
NODE_INFO never changes. -/
theorem processEvents_keys_of_mem (evs : List Event) :
    ∀ ni : NodeInfo, (∀ e ∈ evs, e.node ∈ ni.keys) →
    (processEvents ni evs).keys = ni.keys := by
  induction evs with
  | nil => intro ni _; rfl
  | cons e t ih =>
    intro ni h
    have he : e.node ∈ ni.keys := h e (by simp)
    have hstep : processEvents ni (e :: t) = processEvents (processEvent ni e).1 t := by
      simp [processEvents]
    have hkeys : (processEvent ni e).1.keys = ni.keys := by
      simp [processEvent, ensure_node_exists, he]
    rw [hstep, ih (processEvent ni e).1 (by rw [hkeys]; exact fun x hx => h x (by simp [hx]))]
    exact hkeys

/-- When every index of the iteration list is a key, the calc_rx_nocol_calls
loop returns the accumulated sum. -/
theorem rxNocolGo_all (ni : NodeInfo) (l : List ℕ)
    (h : ∀ i ∈ l, i ∈ ni.keys) : ∀ acc : ℕ,
    rxNocolGo ni acc l
      = some (acc + (l.map (fun i => (ni.st i).processed_rx_count)).sum) := by
  induction l with
  | nil => intro acc; simp [rxNocolGo]
  | cons j t ih =>
    intro acc
    have hj : j ∈ ni.keys := h j (by simp)
    rw [rxNocolGo, if_pos hj,
      ih (fun i hi => h i (by simp [hi])) (acc + (ni.st j).processed_rx_count)]
    simp [Nat.add_assoc]

set_option maxRecDepth 8000 in
/-- Claim C6 counterexample: parsing a trace that references only node 301
leaves NODE_INFO with keys 0..299 and 301, and calc_rx_nocol_calls raises
KeyError at index 300 instead of returning the sum. -/
theorem c6_rx_nocol_cex :
    calc_rx_nocol_calls (processEvents initNodeInfo node301Events) = none := by
  decide

set_option maxRecDepth 8000 in
/-- Claim C6 (amended): calc_rx_nocol_calls iterates over the integer indices
0..len(NODE_INFO)-1, so it returns the sum of processed_rx_count over all
nodes present without faulting whenever every referenced node id is below the
300 preallocated keys; a trace referencing a node id of 301 or greater without
its predecessors makes it fault with a KeyError. -/
theorem c6_rx_nocol_amended (evs : List Event) (h : ∀ e ∈ evs, e.node < 300) :
    calc_rx_nocol_calls (processEvents initNodeInfo evs)
      = some (((processEvents initNodeInfo evs).keys.map
          (fun k => ((processEvents initNodeInfo evs).st k).processed_rx_count)).sum) := by
  have hkeys : (processEvents initNodeInfo evs).keys = List.range 300 :=
    processEvents_keys_of_mem evs initNodeInfo
      (fun e he => List.mem_range.mpr (h e he))
  unfold calc_rx_nocol_calls
  rw [hkeys, List.length_range]
  rw [rxNocolGo_all (processEvents initNodeInfo evs) (List.range 300)
    (fun i hi => by rw [hkeys]; exact hi) 0]
  simp

/-- Claim C6 witness: a trace touching only node 5 keeps all keys below 300
and the amended sum law holds. -/
theorem c6_rx_nocol_witness :
    calc_rx_nocol_calls (processEvents initNodeInfo node5Events)
      = some (((processEvents initNodeInfo node5Events).keys.map
          (fun k => ((processEvents initNodeInfo node5Events).st k).processed_rx_count)).sum) :=
  c6_rx_nocol_amended node5Events (by decide)

/-! ## Claim C7 -/

/-- A TX update never decreases any of the three energy fields (payload
non-negative, as the data model requires). -/
theorem updateTX_mono (st : NodeState) (ts : ℚ) (pay : ℤ) (h : 0 ≤ pay) :
    st.rx_energy ≤ (updateTX st ts pay).1.rx_energy
    ∧ st.tx_energy ≤ (updateTX st ts pay).1.tx_energy
    ∧ st.idle_energy ≤ (updateTX st ts pay).1.idle_energy := by
  have hair : 0 ≤ ((pay : ℚ) * 8) / LINK_SPEED := by
    apply div_nonneg
    · have hp : (0 : ℚ) ≤ (pay : ℚ) := by exact_mod_cast h
      linarith
    · norm_num [LINK_SPEED]
  have h1 : 0 ≤ ((pay : ℚ) * 8) / LINK_SPEED * TX_POWER :=
    mul_nonneg hair (by norm_num [TX_POWER])
  have h2 : 0 ≤ ((pay : ℚ) * 8) / LINK_SPEED * IDLE_POWER :=
    mul_nonneg hair (by norm_num [IDLE_POWER])
  by_cases hb : st.last_ts ≤ ts
  · have h3 : 0 ≤ ((ts - st.last_ts) / 1000000000) * IDLE_POWER :=
      mul_nonneg (div_nonneg (by linarith) (by norm_num)) (by norm_num [IDLE_POWER])
    refine ⟨?_, ?_, ?_⟩ <;> simp [updateTX, hb] <;> linarith
  · refine ⟨?_, ?_, ?_⟩ <;> simp [updateTX, hb] <;> linarith

/-- An RX update never decreases any of the three energy fields. -/
theorem updateRX_mono (st : NodeState) (ts : ℚ) (pay : ℤ) (h : 0 ≤ pay) :
    st.rx_energy ≤ (updateRX st ts pay).1.rx_energy
    ∧ st.tx_energy ≤ (updateRX st ts pay).1.tx_energy
    ∧ st.idle_energy ≤ (updateRX st ts pay).1.idle_energy := by
  have hair : 0 ≤ ((pay : ℚ) * 8) / LINK_SPEED := by
    apply div_nonneg
    · have hp : (0 : ℚ) ≤ (pay : ℚ) := by exact_mod_cast h
      linarith
    · norm_num [LINK_SPEED]
  have h1 : 0 ≤ ((pay : ℚ) * 8) / LINK_SPEED * RX_POWER :=
    mul_nonneg hair (by norm_num [RX_POWER])
  by_cases hb : st.last_ts ≤ ts - ((pay : ℚ) * 8) / LINK_SPEED
  · have h3 : 0 ≤ ((ts - st.last_ts) / 1000000000) * IDLE_POWER := by
      apply mul_nonneg (div_nonneg (by linarith) (by norm_num)) (by norm_num [IDLE_POWER])
    refine ⟨?_, ?_, ?_⟩ <;> simp [updateRX, hb] <;> linarith
  · refine ⟨?_, ?_, ?_⟩ <;> simp [updateRX, hb]

/-- One dispatched event never decreases any of the three energy fields. -/
theorem stepNode_mono (st : NodeState) (e : Event) (h : 0 ≤ e.payload) :
    st.rx_energy ≤ (stepNode st e).1.rx_energy
    ∧ st.tx_energy ≤ (stepNode st e).1.tx_energy
    ∧ st.idle_energy ≤ (stepNode st e).1.idle_energy := by
  cases hm : e.mode
  · simpa [stepNode, hm] using updateTX_mono st e.ts e.payload h
  · simpa [stepNode, hm] using updateRX_mono st e.ts e.payload h

/-- ensure_node_exists leaves every other key's state untouched. -/
theorem ensure_st_ne (ni : NodeInfo) (n k : ℕ) (hk : k ≠ n) :
    (ensure_node_exists ni n).st k = ni.st k := by
  by_cases h : n ∈ ni.keys <;> simp [ensure_node_exists, h, updStore, hk]

/-- When absent keys hold the template state, ensure_node_exists leaves the
looked-up node's state unchanged. -/
theorem ensure_st_self (ni : NodeInfo) (n : ℕ)
    (hout : ∀ k, k ∉ ni.keys → ni.st k = NODE_VALUES) :
    (ensure_node_exists ni n).st n = ni.st n := by
  by_cases h : n ∈ ni.keys
  · simp [ensure_node_exists, h]
  · simp [ensure_node_exists, h, updStore, hout n h]

/-- processEvent leaves every other node's state untouched. -/
theorem processEvent_st_ne (ni : NodeInfo) (e : Event) (k : ℕ) (hk : k ≠ e.node) :
    (processEvent ni e).1.st k = ni.st k := by
  simp [processEvent, updStore, hk, ensure_st_ne ni e.node k hk]

/-- When absent keys hold the template state, the processed node's new state is
the step applied to its old state. -/
theorem processEvent_st_self (ni : NodeInfo) (e : Event)
    (hout : ∀ k, k ∉ ni.keys → ni.st k = NODE_VALUES) :
    (processEvent ni e).1.st e.node = (stepNode (ni.st e.node) e).1 := by
  simp [processEvent, updStore, ensure_st_self ni e.node hout]

/-- The event's node is always a key after the step. -/
theorem processEvent_node_mem (ni : NodeInfo) (e : Event) :
    e.node ∈ (processEvent ni e).1.keys := by
  show e.node ∈ (ensure_node_exists ni e.node).keys
  by_cases h : e.node ∈ ni.keys <;> simp [ensure_node_exists, h]

/-- Keys only grow across a step. -/
theorem processEvent_keys_mono (ni : NodeInfo) (e : Event) (k : ℕ)
    (hk : k ∈ ni.keys) : k ∈ (processEvent ni e).1.keys := by
  show k ∈ (ensure_node_exists ni e.node).keys
  by_cases h : e.node ∈ ni.keys <;> simp [ensure_node_exists, h, hk]

/-- A step preserves the invariant that absent keys hold the template state. -/
theorem processEvent_out (ni : NodeInfo) (e : Event)
    (hout : ∀ k, k ∉ ni.keys → ni.st k = NODE_VALUES) :
    ∀ k, k ∉ (processEvent ni e).1.keys → (processEvent ni e).1.st k = NODE_VALUES := by
  intro k hk
  have hkn : k ≠ e.node := fun heq => hk (heq ▸ processEvent_node_mem ni e)
  rw [processEvent_st_ne ni e k hkn]
  exact hout k (fun hmem => hk (processEvent_keys_mono ni e k hmem))

/-- After processing any event list from the initial NODE_INFO, absent keys
hold the template state. -/
theorem processEvents_out (evs : List Event) :
    ∀ ni : NodeInfo, (∀ k, k ∉ ni.keys → ni.st k = NODE_VALUES) →
    ∀ k, k ∉ (processEvents ni evs).keys → (processEvents ni evs).st k = NODE_VALUES := by
  induction evs with
  | nil => intro ni h; exact h
  | cons e t ih =>
    intro ni h
    have hstep : processEvents ni (e :: t) = processEvents (processEvent ni e).1 t := by
      simp [processEvents]
    rw [hstep]
    exact ih (processEvent ni e).1 (processEvent_out ni e h)

/-- One step never decreases the total energy of the map (payload
non-negative; absent keys hold the template state). -/
theorem processEvent_energy (ni : NodeInfo) (e : Event) (h : 0 ≤ e.payload)
    (hout : ∀ k, k ∉ ni.keys → ni.st k = NODE_VALUES) :
    calc_energy_consumption ni ≤ calc_energy_consumption (processEvent ni e).1 := by
  by_cases hm : e.node ∈ ni.keys
  · have hkeys : (processEvent ni e).1.keys = ni.keys := by
      simp [processEvent, ensure_node_exists, hm]
    unfold calc_energy_consumption
    rw [hkeys]
    apply List.sum_le_sum
    intro k _
    by_cases hkn : k = e.node
    · subst hkn
      rw [processEvent_st_self ni e hout]
      have hmono := stepNode_mono (ni.st e.node) e h
      unfold nodeEnergy
      linarith [hmono.1, hmono.2.1, hmono.2.2]
    · rw [processEvent_st_ne ni e k hkn]
  · have hkeys : (processEvent ni e).1.keys = ni.keys ++ [e.node] := by
      simp [processEvent, ensure_node_exists, hm]
    unfold calc_energy_consumption
    rw [hkeys, List.map_append, List.sum_append]
    have hmap : ni.keys.map (fun k => nodeEnergy ((processEvent ni e).1.st k))
        = ni.keys.map (fun k => nodeEnergy (ni.st k)) := by
      apply List.map_congr_left
      intro k hk
      have hkn : k ≠ e.node := fun hx => hm (hx ▸ hk)
      rw [processEvent_st_ne ni e k hkn]
    rw [hmap]
    have hdef : ni.st e.node = NODE_VALUES := hout e.node hm
    have hnn : 0 ≤ nodeEnergy ((processEvent ni e).1.st e.node) := by
      rw [processEvent_st_self ni e hout, hdef]
      have hmono := stepNode_mono NODE_VALUES e h
      have e1 : NODE_VALUES.rx_energy = 0 := rfl
      have e2 : NODE_VALUES.tx_energy = 0 := rfl
      have e3 : NODE_VALUES.idle_energy = 0 := rfl
      unfold nodeEnergy
      linarith [hmono.1, hmono.2.1, hmono.2.2, e1, e2, e3]
    simp only [List.map_cons, List.map_nil, List.sum_cons, List.sum_nil]
    linarith

/-- Claim C7: processing one more event - with the non-negative payload size
the data model prescribes - never decreases any node's rx_energy, tx_energy or
idle_energy, and consequently calc_energy_consumption is monotonically
non-decreasing as events are appended one at a time. -/
theorem c7_energy_monotone (evs : List Event) (e : Event) (h : 0 ≤ e.payload) :
    (∀ k : ℕ,
      ((processEvents initNodeInfo evs).st k).rx_energy
          ≤ ((processEvents initNodeInfo (evs ++ [e])).st k).rx_energy
      ∧ ((processEvents initNodeInfo evs).st k).tx_energy
          ≤ ((processEvents initNodeInfo (evs ++ [e])).st k).tx_energy
      ∧ ((processEvents initNodeInfo evs).st k).idle_energy
          ≤ ((processEvents initNodeInfo (evs ++ [e])).st k).idle_energy)
    ∧ calc_energy_consumption (processEvents initNodeInfo evs)
        ≤ calc_energy_consumption (processEvents initNodeInfo (evs ++ [e])) := by
  have happ : processEvents initNodeInfo (evs ++ [e])
      = (processEvent (processEvents initNodeInfo evs) e).1 := by
    simp [processEvents]
  have hout : ∀ k, k ∉ (processEvents initNodeInfo evs).keys →
      (processEvents initNodeInfo evs).st k = NODE_VALUES :=
    processEvents_out evs initNodeInfo (fun _ _ => rfl)
  constructor
  · intro k
    rw [happ]
    by_cases hk : k = e.node
    · subst hk
      rw [processEvent_st_self (processEvents initNodeInfo evs) e hout]
      exact stepNode_mono ((processEvents initNodeInfo evs).st e.node) e h
    · rw [processEvent_st_ne (processEvents initNodeInfo evs) e k hk]
      exact ⟨le_refl _, le_refl _, le_refl _⟩
  · rw [happ]
    exact processEvent_energy (processEvents initNodeInfo evs) e h hout

/-- Claim C7 witness: appending the node-5 TX event to the empty trace does not
decrease the total energy. -/
theorem c7_energy_monotone_witness :
    calc_energy_consumption (processEvents initNodeInfo ([]))
      ≤ calc_energy_consumption (processEvents initNodeInfo ([] ++ [ev5])) :=
  (c7_energy_monotone ([]) ev5 (by decide)).2

/-! ## Claim C5 -/

/-- The calc_delay outer loop computes exactly the spec-side sample list: the
processed-ids accumulator corresponds to the uids that already started a group
in the scanned prefix. -/
theorem delayGo_eq_spec (all : List TraceRec) (rest : List TraceRec) :
    ∀ (pre : List TraceRec) (processed : List ℤ) (delays : List ℚ),
    (∀ r ∈ rest, (pyInt r.dst).isSome) →
    (∀ u : ℤ, u ∈ processed ↔ ∃ q ∈ pre, q.uid = u ∧ delayMatches q = true) →
    delayGo all processed delays rest = some (delays ++ specSamplesGo all pre rest) := by
  induction rest with
  | nil => intro pre processed delays _ _; simp [delayGo, specSamplesGo]
  | cons r t ih =>
    intro pre processed delays hnum hinv
    obtain ⟨d, hd⟩ := Option.isSome_iff_exists.mp (hnum r (by simp))
    have hnumt : ∀ x ∈ t, (pyInt x.dst).isSome := fun x hx => hnum x (by simp [hx])
    by_cases hc : d = r.node + 1 ∧ r.uid ∉ processed
    · have hmatch : delayMatches r = true := by
        simp [delayMatches, hd, hc.1]
      have hnoany : pre.any (fun q => decide (q.uid = r.uid) && delayMatches q) = false := by
        rw [List.any_eq_false]
        intro q hq
        simp only [Bool.and_eq_true, decide_eq_true_eq, not_and]
        intro hqu hqm
        exact absurd ((hinv r.uid).mpr ⟨q, hq, hqu, hqm⟩) hc.2
      have hinv2 : ∀ u : ℤ, u ∈ processed ++ [r.uid] ↔
          ∃ q ∈ pre ++ [r], q.uid = u ∧ delayMatches q = true := by
        intro u
        simp only [List.mem_append, List.mem_singleton]
        constructor
        · rintro (hu | hu)
          · obtain ⟨q, hq, hqu, hqm⟩ := (hinv u).mp hu
            exact ⟨q, Or.inl hq, hqu, hqm⟩
          · exact ⟨r, Or.inr rfl, hu.symm, hmatch⟩
        · rintro ⟨q, hq | hq, hqu, hqm⟩
          · exact Or.inl ((hinv u).mpr ⟨q, hq, hqu, hqm⟩)
          · subst hq
            exact Or.inr hqu.symm
      have hstep : delayGo all processed delays (r :: t)
          = delayGo all (processed ++ [r.uid]) (delays ++ txSamples all r) t := by
        simp only [delayGo, hd]
        rw [if_pos hc]
      have hsstep : specSamplesGo all pre (r :: t)
          = txSamples all r ++ specSamplesGo all (pre ++ [r]) t := by
        simp only [specSamplesGo]
        rw [if_pos (by simp [hmatch, hnoany])]
      rw [hstep,
        ih (pre ++ [r]) (processed ++ [r.uid]) (delays ++ txSamples all r) hnumt hinv2,
        hsstep]
      simp [List.append_assoc]
    · have hsplit : d ≠ r.node + 1 ∨ r.uid ∈ processed := by
        by_contra hx
        push_neg at hx
        exact hc ⟨hx.1, hx.2⟩
      have hcondF : ¬ (delayMatches r
          ∧ ¬ (pre.any (fun q => decide (q.uid = r.uid) && delayMatches q))) := by
        rcases hsplit with hne | hmem
        · intro hx
          have hsome : pyInt r.dst = some (r.node + 1) := by
            have hx1 := hx.1
            simpa [delayMatches] using hx1
          rw [hd] at hsome
          exact hne (Option.some.inj hsome)
        · intro hx
          apply hx.2
          obtain ⟨q, hq, hqu, hqm⟩ := (hinv r.uid).mp hmem
          rw [List.any_eq_true]
          exact ⟨q, hq, by simp [hqu, hqm]⟩
      have hinv2 : ∀ u : ℤ, u ∈ processed ↔
          ∃ q ∈ pre ++ [r], q.uid = u ∧ delayMatches q = true := by
        intro u
        rw [hinv u]
        simp only [List.mem_append, List.mem_singleton]
        constructor
        · rintro ⟨q, hq, hqu, hqm⟩
          exact ⟨q, Or.inl hq, hqu, hqm⟩
        · rintro ⟨q, hq | hq, hqu, hqm⟩
          · exact ⟨q, hq, hqu, hqm⟩
          · rw [hq] at hqu hqm
            have hsome : pyInt r.dst = some (r.node + 1) := by
              simpa [delayMatches] using hqm
            rw [hd] at hsome
            have hdn : d = r.node + 1 := Option.some.inj hsome
            rcases hsplit with hne | hmem
            · exact absurd hdn hne
            · obtain ⟨q2, hq2, hq2u, hq2m⟩ := (hinv r.uid).mp hmem
              exact ⟨q2, hq2, hq2u.trans hqu, hq2m⟩
      have hstep : delayGo all processed delays (r :: t)
          = delayGo all processed delays t := by
        simp only [delayGo, hd]
        rw [if_neg hc]
      have hsstep : specSamplesGo all pre (r :: t)
          = specSamplesGo all (pre ++ [r]) t := by
        simp only [specSamplesGo]
        rw [if_neg hcondF]
        simp
      rw [hstep, ih (pre ++ [r]) processed delays hnumt hinv2, hsstep]

/-- Claim C5 counterexample: a trace consisting of a single TX record whose
int(MAC_DST_ADDR) equals NODE_ID + 1 - so no RX record exists at all - still
starts a sample group (the code never checks the mode at line 373) and
calc_delay returns 0.0, where the claim requires NaN (no RX delivery
endpoint, hence no samples). -/
theorem c5_delay_cex : calc_delay selfDstTxTrace = some (some 0) := by
  have h1 : pyInt (("1") : String) = some 1 := rfl
  simp [calc_delay, delayGo, selfDstTxTrace, txSamples, mkMean, h1]

/-- Claim C5 (amended): average_delay is the arithmetic mean (NaN when no
samples exist) of the samples collected as follows: for the first record of
each unique_id - of either mode, TX or RX, since the code never restricts the
delivery-endpoint test to RX records - whose int(MAC_DST_ADDR) equals
NODE_ID + 1, one sample (rx_ts - tx_ts) / 1e9 per TX record sharing that
unique_id; and on the single TX (ts 0) / RX (ts 5e9) example with matching
unique_id and destination it equals 5.0 seconds. -/
theorem c5_delay_amended :
    (∀ tr : List TraceRec, (∀ r ∈ tr, (pyInt r.dst).isSome) →
      calc_delay tr = some (mkMean (specSamples tr)))
    ∧ calc_delay delayExampleTrace = some (some 5) := by
  constructor
  · intro tr hnum
    have h := delayGo_eq_spec tr tr ([]) ([]) ([]) hnum (by simp)
    simp only [calc_delay, specSamples, h]
    simp
  · have h2 : pyInt (("2") : String) = some 2 := rfl
    simp [calc_delay, delayGo, delayExampleTrace, txSamples, mkMean, h2]
    norm_num

/-- Claim C5 witness: on the canonical TX/RX example trace the code's
average_delay agrees with the spec-side sample collection. -/
theorem c5_delay_witness :
    calc_delay delayExampleTrace = some (mkMean (specSamples delayExampleTrace)) :=
  c5_delay_amended.1 delayExampleTrace (by decide)

end AquaSim
